import Mathlib

/-!
Shallow embedding of the financial projection engine of `bva.py`
(business-value-analysis tool): working-time calculator, cost allocation,
benefit realization curve, cash-flow projector, scenario engine and
financial metrics (NPV / ROI / payback in years and months).

Python floats are modelled by `ℚ`; integer-valued inputs (months, years)
by `ℕ`; the string labels "N years" / "N months" / "N/A" by `Option ℕ`
(`none` = "N/A").
-/

namespace BVA

/-- Module-level working-hours computation (bva.py lines 620-622):
`total_working_days = weeks_per_year * days_per_week - holiday_sick_days`,
`working_hours_per_fte_per_year = total_working_days * hours_per_day`. -/
def working_hours_per_fte_per_year (hours_per_day days_per_week weeks_per_year holiday_sick_days : ℚ) : ℚ :=
  ((weeks_per_year * days_per_week) - holiday_sick_days) * hours_per_day

/-- Result quadruple of `calculate_alert_costs` / `calculate_incident_costs`:
`(cost_per_unit, total_handling_cost, fte_time_fraction, working_hours)`. -/
structure CostResult where
  cost_per_unit : ℚ
  total_handling_cost : ℚ
  fte_time_fraction : ℚ
  working_hours : ℚ
deriving DecidableEq

/-- `calculate_alert_costs` (bva.py lines 801-820). -/
def calculate_alert_costs (alert_volume alert_ftes avg_alert_triage_time avg_salary_per_year
    hours_per_day days_per_week weeks_per_year holiday_sick_days : ℚ) : CostResult :=
  if alert_volume = 0 ∨ alert_ftes = 0 then ⟨0, 0, 0, 0⟩
  else
    let total_alert_time_minutes_per_year := alert_volume * avg_alert_triage_time
    let total_alert_time_hours_per_year := total_alert_time_minutes_per_year / 60
    let total_working_days := (weeks_per_year * days_per_week) - holiday_sick_days
    let whpy := total_working_days * hours_per_day
    let total_available_fte_hours := alert_ftes * whpy
    let fte_time_percentage_on_alerts :=
      if total_available_fte_hours > 0 then total_alert_time_hours_per_year / total_available_fte_hours else 0
    let total_fte_cost := alert_ftes * avg_salary_per_year
    let total_alert_handling_cost := total_fte_cost * fte_time_percentage_on_alerts
    let cost_per_alert := if alert_volume > 0 then total_alert_handling_cost / alert_volume else 0
    ⟨cost_per_alert, total_alert_handling_cost, fte_time_percentage_on_alerts, whpy⟩

/-- `calculate_incident_costs` (bva.py lines 823-842); same algorithm as
`calculate_alert_costs` with incident-workload inputs. -/
def calculate_incident_costs (incident_volume incident_ftes avg_incident_triage_time avg_salary_per_year
    hours_per_day days_per_week weeks_per_year holiday_sick_days : ℚ) : CostResult :=
  if incident_volume = 0 ∨ incident_ftes = 0 then ⟨0, 0, 0, 0⟩
  else
    let total_incident_time_minutes_per_year := incident_volume * avg_incident_triage_time
    let total_incident_time_hours_per_year := total_incident_time_minutes_per_year / 60
    let total_working_days := (weeks_per_year * days_per_week) - holiday_sick_days
    let whpy := total_working_days * hours_per_day
    let total_available_fte_hours := incident_ftes * whpy
    let fte_time_percentage_on_incidents :=
      if total_available_fte_hours > 0 then total_incident_time_hours_per_year / total_available_fte_hours else 0
    let total_fte_cost := incident_ftes * avg_salary_per_year
    let total_incident_handling_cost := total_fte_cost * fte_time_percentage_on_incidents
    let cost_per_incident := if incident_volume > 0 then total_incident_handling_cost / incident_volume else 0
    ⟨cost_per_incident, total_incident_handling_cost, fte_time_percentage_on_incidents, whpy⟩

/-- `calculate_benefit_realization_factor` (bva.py lines 881-890): 0 during
implementation delay, linear ramp `(month - delay)/ramp`, then 1. -/
def calculate_benefit_realization_factor (month implementation_delay_months ramp_up_months : ℕ) : ℚ :=
  if month ≤ implementation_delay_months then 0
  else if month ≤ implementation_delay_months + ramp_up_months then
    ((month : ℚ) - (implementation_delay_months : ℚ)) / (ramp_up_months : ℚ)
  else 1

/-- Python `int()` applied to a rational: truncation toward zero. -/
def pyInt (x : ℚ) : ℤ :=
  if 0 ≤ x then ⌊x⌋ else ⌈x⌉

/-- One row of the yearly cash-flow table built by `calculate_scenario_results`. -/
structure CashFlowYear where
  year : ℕ
  benefits : ℚ
  platform_cost : ℚ
  services_cost : ℚ
  net_cash_flow : ℚ
  realization_factor : ℚ
deriving DecidableEq

/-- The 12 monthly realization factors of a given year
(months `(year-1)*12+1 .. year*12`), as collected by the loop in
`calculate_scenario_results` (bva.py lines 905-908). -/
def monthly_factors (year delay ramp : ℕ) : List ℚ :=
  (List.range 12).map (fun j => calculate_benefit_realization_factor ((year - 1) * 12 + 1 + j) delay ramp)

/-- `np.mean(monthly_factors)` (bva.py line 910): sum divided by length. -/
def avg_realization_factor (year delay ramp : ℕ) : ℚ :=
  (monthly_factors year delay ramp).sum / ((monthly_factors year delay ramp).length : ℚ)

/-- One iteration of the year loop of `calculate_scenario_results`
(bva.py lines 901-923). -/
def scenario_year_cash_flow (scenario_benefits platform_cost services_cost : ℚ)
    (delay ramp year : ℕ) : CashFlowYear :=
  let avg := avg_realization_factor year delay ramp
  let year_benefits := scenario_benefits * avg
  let year_services_cost := if year = 1 then services_cost else 0
  { year := year
    benefits := year_benefits
    platform_cost := platform_cost
    services_cost := year_services_cost
    net_cash_flow := year_benefits - platform_cost - year_services_cost
    realization_factor := avg }

/-- The list `scenario_cash_flows` for years `1..evaluation_years`. -/
def scenario_cash_flows (scenario_benefits platform_cost services_cost : ℚ)
    (delay ramp evaluation_years : ℕ) : List CashFlowYear :=
  (List.range evaluation_years).map
    (fun i => scenario_year_cash_flow scenario_benefits platform_cost services_cost delay ramp (i + 1))

/-- `scenario_npv` (bva.py line 926): sum of `net_cash_flow / (1+discount_rate)^year`. -/
def scenario_npv (cash_flows : List CashFlowYear) (discount_rate : ℚ) : ℚ :=
  (cash_flows.map (fun cf => cf.net_cash_flow / (1 + discount_rate) ^ cf.year)).sum

/-- `scenario_tco` (bva.py line 927): sum of `platform_cost + services_cost` over all rows. -/
def scenario_tco (cash_flows : List CashFlowYear) : ℚ :=
  (cash_flows.map (fun cf => cf.platform_cost + cf.services_cost)).sum

/-- The annual payback loop of `calculate_scenario_results` (bva.py lines 930-937):
running cumulative sum of net cash flows; first row with cumulative ≥ 0 gives
its year, otherwise "N/A" (`none`). -/
def payback_years_go : List CashFlowYear → ℚ → Option ℕ
  | [], _ => none
  | cf :: rest, cumulative =>
    let cumulative2 := cumulative + cf.net_cash_flow
    if 0 ≤ cumulative2 then some cf.year else payback_years_go rest cumulative2

/-- Result record of `calculate_scenario_results`. -/
structure ScenarioResult where
  npv : ℚ
  roi : ℚ
  payback : Option ℕ
  impl_delay : ℕ
  benefits_mult : ℚ
  cash_flows : List CashFlowYear
  annual_benefits : ℚ
deriving DecidableEq

/-- `max(0, int(implementation_delay_months * implementation_delay_multiplier))`
(bva.py line 896, repeated verbatim at line 1044 in the payback update loop). -/
def scenario_impl_delay_of (implementation_delay_months : ℕ)
    (implementation_delay_multiplier : ℚ) : ℕ :=
  (max 0 (pyInt ((implementation_delay_months : ℚ) * implementation_delay_multiplier))).toNat

/-- `calculate_scenario_results` (bva.py lines 892-947), parametrised over the
module-level globals it closes over (`total_annual_benefits`,
`implementation_delay_months`, `benefits_ramp_up_months`, `evaluation_years`,
`platform_cost`, `services_cost`, `discount_rate`). -/
def calculate_scenario_results (total_annual_benefits : ℚ)
    (implementation_delay_months benefits_ramp_up_months evaluation_years : ℕ)
    (platform_cost services_cost discount_rate : ℚ)
    (benefits_multiplier implementation_delay_multiplier : ℚ) : ScenarioResult :=
  let scenario_benefits := total_annual_benefits * benefits_multiplier
  let scenario_impl_delay :=
    scenario_impl_delay_of implementation_delay_months implementation_delay_multiplier
  let scenario_ramp_up := benefits_ramp_up_months
  let cfs := scenario_cash_flows scenario_benefits platform_cost services_cost
    scenario_impl_delay scenario_ramp_up evaluation_years
  let npv := scenario_npv cfs discount_rate
  let tco := scenario_tco cfs
  let roi := if tco ≠ 0 then npv / tco else 0
  { npv := npv
    roi := roi
    payback := payback_years_go cfs 0
    impl_delay := scenario_impl_delay
    benefits_mult := benefits_multiplier
    cash_flows := cfs
    annual_benefits := scenario_benefits }

/-- The monthly net cash flow
`(annual_benefits/12)*factor(month) - annual_platform_cost/12`, computed
identically inside `calculate_payback_months` (bva.py lines 1024-1031) and
`get_monthly_cumulative_cash_flow` (bva.py lines 1754-1760). -/
def monthly_net_cash_flow (annual_benefits annual_platform_cost : ℚ) (delay ramp month : ℕ) : ℚ :=
  let factor := calculate_benefit_realization_factor month delay ramp
  let monthly_benefit := (annual_benefits / 12) * factor
  let monthly_platform_cost := annual_platform_cost / 12
  monthly_benefit - monthly_platform_cost

/-- The month loop of `calculate_payback_months` (bva.py lines 1022-1035),
with an explicit fuel counter for the remaining months. -/
def payback_months_go (annual_benefits annual_platform_cost : ℚ) (delay ramp : ℕ) :
    ℕ → ℕ → ℚ → Option ℕ
  | 0, _, _ => none
  | fuel + 1, month, cumulative =>
    let cumulative2 :=
      cumulative + monthly_net_cash_flow annual_benefits annual_platform_cost delay ramp month
    if 0 ≤ cumulative2 then some month
    else payback_months_go annual_benefits annual_platform_cost delay ramp fuel (month + 1) cumulative2

/-- `calculate_payback_months` (bva.py lines 1011-1035): cumulative cash flow
starts at `-one_time_services_cost`, then each month adds
`(annual_benefits/12)*factor - annual_platform_cost/12`; first month with
cumulative ≥ 0, else "N/A" (`none`). -/
def calculate_payback_months (annual_benefits annual_platform_cost one_time_services_cost : ℚ)
    (implementation_delay_months benefits_ramp_up_months max_months_eval : ℕ) : Option ℕ :=
  payback_months_go annual_benefits annual_platform_cost
    implementation_delay_months benefits_ramp_up_months
    max_months_eval 1 (-one_time_services_cost)

/-- One row of the monthly cumulative cash-flow table of
`get_monthly_cumulative_cash_flow`. -/
structure MonthRow where
  month : ℕ
  net_cash_flow : ℚ
  cumulative_net_cash_flow : ℚ
deriving DecidableEq

/-- The month loop of `get_monthly_cumulative_cash_flow` (bva.py lines 1753-1767),
with an explicit fuel counter for the remaining months. -/
def monthly_cf_go (annual_benefits annual_platform_cost : ℚ) (delay ramp : ℕ) :
    ℕ → ℕ → ℚ → List MonthRow
  | 0, _, _ => []
  | fuel + 1, month, cumulative =>
    let ncf := monthly_net_cash_flow annual_benefits annual_platform_cost delay ramp month
    let cumulative2 := cumulative + ncf
    ⟨month, ncf, cumulative2⟩ ::
      monthly_cf_go annual_benefits annual_platform_cost delay ramp fuel (month + 1) cumulative2

/-- `get_monthly_cumulative_cash_flow` (bva.py lines 1743-1768): an initial
month-0 row carrying `-one_time_services_cost`, then one row per month
`1 .. evaluation_years*12`. -/
def get_monthly_cumulative_cash_flow (annual_benefits annual_platform_cost one_time_services_cost : ℚ)
    (implementation_delay_months benefits_ramp_up_months evaluation_years : ℕ) : List MonthRow :=
  ⟨0, -one_time_services_cost, -one_time_services_cost⟩ ::
    monthly_cf_go annual_benefits annual_platform_cost
      implementation_delay_months benefits_ramp_up_months
      (evaluation_years * 12) 1 (-one_time_services_cost)

/-- Cumulative net cash flow at a given row index of a monthly table
(row index = month number, since the table has one row per month from 0). -/
def monthRowCumAt (rows : List MonthRow) (i : ℕ) : ℚ :=
  (rows.getD i ⟨0, 0, 0⟩).cumulative_net_cash_flow

/-! ### Basic lemmas about the realization curve -/

lemma factor_nonneg (m d r : ℕ) : 0 ≤ calculate_benefit_realization_factor m d r := by
  unfold calculate_benefit_realization_factor
  split_ifs with h1 h2
  · exact le_refl 0
  · apply div_nonneg _ (by positivity)
    have hd : (d : ℚ) ≤ (m : ℚ) := by exact_mod_cast Nat.le_of_lt (Nat.not_le.mp h1)
    linarith
  · norm_num

lemma factor_le_one (m d r : ℕ) : calculate_benefit_realization_factor m d r ≤ 1 := by
  unfold calculate_benefit_realization_factor
  split_ifs with h1 h2
  · norm_num
  · have hd : d < m := Nat.not_le.mp h1
    have hr : 0 < r := by omega
    rw [div_le_one (by exact_mod_cast hr)]
    have hm : (m : ℚ) ≤ (d : ℚ) + (r : ℚ) := by exact_mod_cast h2
    linarith
  · exact le_refl 1

lemma factor_mono (d r : ℕ) {m1 m2 : ℕ} (h : m1 ≤ m2) :
    calculate_benefit_realization_factor m1 d r ≤ calculate_benefit_realization_factor m2 d r := by
  by_cases h2a : m2 ≤ d
  · have h1a : m1 ≤ d := le_trans h h2a
    simp [calculate_benefit_realization_factor, h1a, h2a]
  · by_cases h2b : m2 ≤ d + r
    · have hr : 0 < r := by omega
      by_cases h1a : m1 ≤ d
      · simp only [calculate_benefit_realization_factor, if_pos h1a, if_neg h2a, if_pos h2b]
        apply div_nonneg _ (by positivity)
        have hd : (d : ℚ) ≤ (m2 : ℚ) := by exact_mod_cast Nat.le_of_lt (Nat.not_le.mp h2a)
        linarith
      · have h1b : m1 ≤ d + r := le_trans h h2b
        simp only [calculate_benefit_realization_factor, if_neg h1a, if_neg h2a, if_pos h1b, if_pos h2b]
        have hrq : (0 : ℚ) < (r : ℚ) := by exact_mod_cast hr
        rw [div_le_div_iff_of_pos_right hrq]
        have : (m1 : ℚ) ≤ (m2 : ℚ) := by exact_mod_cast h
        linarith
    · have h2c : ¬ m2 ≤ d := h2a
      have := factor_le_one m1 d r
      simpa [calculate_benefit_realization_factor, h2c, h2b] using this

lemma factor_anti_delay (m r : ℕ) {d1 d2 : ℕ} (h : d1 ≤ d2) :
    calculate_benefit_realization_factor m d2 r ≤ calculate_benefit_realization_factor m d1 r := by
  by_cases ha : m ≤ d2
  · calc calculate_benefit_realization_factor m d2 r = 0 := by
          simp [calculate_benefit_realization_factor, ha]
      _ ≤ _ := factor_nonneg m d1 r
  · have hd2 : d2 < m := Nat.not_le.mp ha
    have ha1 : ¬ m ≤ d1 := by omega
    by_cases hb : m ≤ d2 + r
    · have hr : 0 < r := by omega
      have hrq : (0 : ℚ) < (r : ℚ) := by exact_mod_cast hr
      by_cases hb1 : m ≤ d1 + r
      · simp only [calculate_benefit_realization_factor, if_neg ha, if_neg ha1, if_pos hb, if_pos hb1]
        rw [div_le_div_iff_of_pos_right hrq]
        have : (d1 : ℚ) ≤ (d2 : ℚ) := by exact_mod_cast h
        linarith
      · simp only [calculate_benefit_realization_factor, if_neg ha, if_neg ha1, if_pos hb, if_neg hb1]
        rw [div_le_one hrq]
        have hm : (m : ℚ) ≤ (d2 : ℚ) + (r : ℚ) := by exact_mod_cast hb
        linarith
    · have hb1 : ¬ m ≤ d1 + r := by omega
      simp [calculate_benefit_realization_factor, ha, ha1, hb, hb1]

lemma factor_of_month_le (m d r : ℕ) (h : m ≤ d) :
    calculate_benefit_realization_factor m d r = 0 := by
  simp [calculate_benefit_realization_factor, h]

lemma factor_of_lt_month (m d r : ℕ) (h : d + r < m) :
    calculate_benefit_realization_factor m d r = 1 := by
  have h1 : ¬ m ≤ d := by omega
  have h2 : ¬ m ≤ d + r := by omega
  simp [calculate_benefit_realization_factor, h1, h2]

/-! ### Claim theorems (first group) -/

/-- C1 counterexample: with the standard calendar (8 h/day, 5 d/week,
52 weeks, 25 holiday+sick days) the engine's formula
`(weeks_per_year*days_per_week - holiday_sick_days) * hours_per_day`
gives 1880 working hours per FTE per year, not 1800 as the claim states. -/
theorem working_hours_standard_calendar_ne_1800 :
    working_hours_per_fte_per_year 8 5 52 25 = 1880 ∧
      working_hours_per_fte_per_year 8 5 52 25 ≠ 1800 := by
  constructor <;> norm_num [working_hours_per_fte_per_year]

/-- C1 (amended): for the fixture volume = 1,200,000 alerts, ftes = 10,
avg_triage_minutes = 25, avg_salary = 50000 and the standard calendar
(8 h/day, 5 d/week, 52 weeks, 25 holiday+sick days), the annual working
hours per FTE equal 1880, and `calculate_alert_costs` returns exactly the
closed-form §4.2 values over that calendar: fte_time_fraction
= 500000/18800 = 1250/47, total_handling_cost = 10·50000·(1250/47)
= 625000000/47, cost_per_unit = (625000000/47)/1200000 = 3125/282. -/
theorem alert_costs_fixture_closed_form :
    working_hours_per_fte_per_year 8 5 52 25 = 1880 ∧
      calculate_alert_costs 1200000 10 25 50000 8 5 52 25 =
        ⟨3125 / 282, 625000000 / 47, 1250 / 47, 1880⟩ := by
  constructor
  · norm_num [working_hours_per_fte_per_year]
  · norm_num [calculate_alert_costs]

/-- C3: for fixed delay `d` and ramp `r`, the realization curve is
non-decreasing in the month, equals 0 for `month ≤ d`, equals 1 for
`month > d + r`, always lies in `[0,1]`, and (for `r > 0`) the ramp formula
value at `month = d + r` equals 1, matching the full-benefit branch. -/
theorem benefit_realization_factor_shape (d r : ℕ) :
    (∀ m1 m2 : ℕ, m1 ≤ m2 →
        calculate_benefit_realization_factor m1 d r ≤ calculate_benefit_realization_factor m2 d r) ∧
    (∀ m : ℕ, m ≤ d → calculate_benefit_realization_factor m d r = 0) ∧
    (∀ m : ℕ, d + r < m → calculate_benefit_realization_factor m d r = 1) ∧
    (∀ m : ℕ, 0 ≤ calculate_benefit_realization_factor m d r ∧
        calculate_benefit_realization_factor m d r ≤ 1) ∧
    (0 < r → calculate_benefit_realization_factor (d + r) d r = 1) := by
  refine ⟨fun m1 m2 h => factor_mono d r h,
    fun m h => factor_of_month_le m d r h,
    fun m h => factor_of_lt_month m d r h,
    fun m => ⟨factor_nonneg m d r, factor_le_one m d r⟩, fun hr => ?_⟩
  have h1 : ¬ d + r ≤ d := by omega
  have h2 : d + r ≤ d + r := le_refl _
  simp only [calculate_benefit_realization_factor, if_neg h1, if_pos h2]
  push_cast
  rw [add_sub_cancel_left]
  exact div_self (by exact_mod_cast Nat.pos_iff_ne_zero.mp hr)

/-- Witness for C3 at concrete inputs d = 2, r = 3, month = 6. -/
theorem benefit_realization_factor_shape_witness :
    calculate_benefit_realization_factor 6 2 3 = 1 :=
  (benefit_realization_factor_shape 2 3).2.2.1 6 (by norm_num)

/-- C4: with `ramp_months = 0` the linear-ramp branch is never entered:
the curve collapses to `if month ≤ delay then 0 else 1`, so every month at
or below the delay takes the zero branch and every later month takes the
full-benefit branch, and no division by the zero ramp ever happens. -/
theorem benefit_realization_factor_zero_ramp (m d : ℕ) :
    calculate_benefit_realization_factor m d 0 = if m ≤ d then 0 else 1 := by
  by_cases h : m ≤ d <;> simp [calculate_benefit_realization_factor, h]

/-- C7: whenever volume = 0 or ftes = 0, both cost-allocation functions
(alerts and incidents) return all-zero outputs, whatever the other inputs. -/
theorem cost_allocation_zero_guard
    (volume ftes triage salary hours_per_day days_per_week weeks_per_year holiday_sick_days : ℚ)
    (h : volume = 0 ∨ ftes = 0) :
    calculate_alert_costs volume ftes triage salary
        hours_per_day days_per_week weeks_per_year holiday_sick_days = ⟨0, 0, 0, 0⟩ ∧
      calculate_incident_costs volume ftes triage salary
        hours_per_day days_per_week weeks_per_year holiday_sick_days = ⟨0, 0, 0, 0⟩ := by
  constructor <;> simp [calculate_alert_costs, calculate_incident_costs, h]

/-- Witness for C7 at volume = 0. -/
theorem cost_allocation_zero_guard_witness :
    ((0 : ℚ) = 0 ∨ (7 : ℚ) = 0) ∧
      (calculate_alert_costs 0 7 25 50000 8 5 52 25 = ⟨0, 0, 0, 0⟩ ∧
        calculate_incident_costs 0 7 25 50000 8 5 52 25 = ⟨0, 0, 0, 0⟩) :=
  ⟨Or.inl rfl, cost_allocation_zero_guard 0 7 25 50000 8 5 52 25 (Or.inl rfl)⟩

/-! ### Projection lemmas for `calculate_scenario_results` -/

lemma csr_annual_benefits (B : ℚ) (dl r ev : ℕ) (P S rate mult dmult : ℚ) :
    (calculate_scenario_results B dl r ev P S rate mult dmult).annual_benefits = B * mult := rfl

lemma csr_impl_delay (B : ℚ) (dl r ev : ℕ) (P S rate mult dmult : ℚ) :
    (calculate_scenario_results B dl r ev P S rate mult dmult).impl_delay =
      scenario_impl_delay_of dl dmult := rfl

lemma csr_cash_flows (B : ℚ) (dl r ev : ℕ) (P S rate mult dmult : ℚ) :
    (calculate_scenario_results B dl r ev P S rate mult dmult).cash_flows =
      scenario_cash_flows (B * mult) P S (scenario_impl_delay_of dl dmult) r ev := rfl

lemma csr_npv (B : ℚ) (dl r ev : ℕ) (P S rate mult dmult : ℚ) :
    (calculate_scenario_results B dl r ev P S rate mult dmult).npv =
      scenario_npv (scenario_cash_flows (B * mult) P S (scenario_impl_delay_of dl dmult) r ev) rate := rfl

lemma csr_roi (B : ℚ) (dl r ev : ℕ) (P S rate mult dmult : ℚ) :
    (calculate_scenario_results B dl r ev P S rate mult dmult).roi =
      (if scenario_tco (scenario_cash_flows (B * mult) P S (scenario_impl_delay_of dl dmult) r ev) ≠ 0
        then scenario_npv (scenario_cash_flows (B * mult) P S (scenario_impl_delay_of dl dmult) r ev) rate /
          scenario_tco (scenario_cash_flows (B * mult) P S (scenario_impl_delay_of dl dmult) r ev)
        else 0) := rfl

lemma csr_payback (B : ℚ) (dl r ev : ℕ) (P S rate mult dmult : ℚ) :
    (calculate_scenario_results B dl r ev P S rate mult dmult).payback =
      payback_years_go (scenario_cash_flows (B * mult) P S (scenario_impl_delay_of dl dmult) r ev) 0 := rfl

/-! ### Sum bridging lemmas -/

lemma sum_map_range (f : ℕ → ℚ) (n : ℕ) :
    ((List.range n).map f).sum = ∑ i in Finset.range n, f i := by
  induction n with
  | zero => simp
  | succ n ih =>
    rw [List.range_succ, List.map_append, List.sum_append, Finset.sum_range_succ, ih]
    simp

lemma scenario_npv_eq_sum (sb P S rate : ℚ) (dl r ev : ℕ) :
    scenario_npv (scenario_cash_flows sb P S dl r ev) rate =
      ∑ i in Finset.range ev,
        (scenario_year_cash_flow sb P S dl r (i + 1)).net_cash_flow / (1 + rate) ^ (i + 1) := by
  unfold scenario_npv scenario_cash_flows
  rw [List.map_map, sum_map_range]
  refine Finset.sum_congr rfl fun i _ => ?_
  simp [Function.comp, scenario_year_cash_flow]

lemma scenario_npv_eq_sum_Icc (sb P S rate : ℚ) (dl r ev : ℕ) :
    scenario_npv (scenario_cash_flows sb P S dl r ev) rate =
      ∑ y in Finset.Icc 1 ev,
        (scenario_year_cash_flow sb P S dl r y).net_cash_flow / (1 + rate) ^ y := by
  rw [scenario_npv_eq_sum, ← Nat.Ico_succ_right, Finset.sum_Ico_eq_sum_range]
  simp [add_comm]

lemma scenario_tco_eq (sb P S : ℚ) (dl r ev : ℕ) (h : 1 ≤ ev) :
    scenario_tco (scenario_cash_flows sb P S dl r ev) = (ev : ℚ) * P + S := by
  unfold scenario_tco scenario_cash_flows
  rw [List.map_map, sum_map_range]
  have hterm : ∀ i ∈ Finset.range ev,
      ((fun cf => cf.platform_cost + cf.services_cost) ∘
        fun i => scenario_year_cash_flow sb P S dl r (i + 1)) i =
      P + (if i = 0 then S else 0) := by
    intro i _
    simp only [Function.comp_apply, scenario_year_cash_flow]
    congr 1
    by_cases hi : i = 0
    · subst hi
      simp
    · rw [if_neg (by omega), if_neg hi]
  rw [Finset.sum_congr rfl hterm, Finset.sum_add_distrib]
  rw [Finset.sum_ite_eq' (Finset.range ev) 0 (fun _ => S)]
  simp [Finset.mem_range, Nat.lt_of_lt_of_le Nat.zero_lt_one h, mul_comm]

/-! ### pyInt lemmas -/

lemma pyInt_of_nonneg {x : ℚ} (h : 0 ≤ x) : pyInt x = ⌊x⌋ := if_pos h

lemma scenario_impl_delay_of_nonneg (dl : ℕ) {dmult : ℚ} (h : 0 ≤ dmult) :
    (scenario_impl_delay_of dl dmult : ℚ) = (⌊(dl : ℚ) * dmult⌋ : ℤ) := by
  have hx : (0 : ℚ) ≤ (dl : ℚ) * dmult := mul_nonneg (Nat.cast_nonneg dl) h
  have hfl : (0 : ℤ) ≤ ⌊(dl : ℚ) * dmult⌋ := Int.floor_nonneg.mpr hx
  unfold scenario_impl_delay_of
  rw [pyInt_of_nonneg hx, max_eq_right hfl]
  exact_mod_cast Int.toNat_of_nonneg hfl

/-! ### Claim theorems (second group) -/

/-- C6: for volume > 0 and ftes > 0, `calculate_alert_costs` returns
fte_time_fraction = (volume·avg_triage_minutes/60)/(ftes·annual_working_hours)
when the available FTE hours are positive and 0 otherwise,
total_handling_cost = ftes·avg_salary·fte_time_fraction, cost_per_unit =
total_handling_cost/volume; the fraction is unclamped and exceeds 1 exactly
when the total triage hours exceed the available FTE hours. -/
theorem alert_cost_allocation_unclamped
    (volume ftes triage salary hpd dpw wpy hsd : ℚ) (hv : 0 < volume) (hf : 0 < ftes) :
    (0 < ftes * working_hours_per_fte_per_year hpd dpw wpy hsd →
      (calculate_alert_costs volume ftes triage salary hpd dpw wpy hsd).fte_time_fraction =
        (volume * triage / 60) / (ftes * working_hours_per_fte_per_year hpd dpw wpy hsd)) ∧
    (¬ 0 < ftes * working_hours_per_fte_per_year hpd dpw wpy hsd →
      (calculate_alert_costs volume ftes triage salary hpd dpw wpy hsd).fte_time_fraction = 0) ∧
    (calculate_alert_costs volume ftes triage salary hpd dpw wpy hsd).total_handling_cost =
      ftes * salary * (calculate_alert_costs volume ftes triage salary hpd dpw wpy hsd).fte_time_fraction ∧
    (calculate_alert_costs volume ftes triage salary hpd dpw wpy hsd).cost_per_unit =
      (calculate_alert_costs volume ftes triage salary hpd dpw wpy hsd).total_handling_cost / volume ∧
    (0 < ftes * working_hours_per_fte_per_year hpd dpw wpy hsd →
      (1 < (calculate_alert_costs volume ftes triage salary hpd dpw wpy hsd).fte_time_fraction ↔
        ftes * working_hours_per_fte_per_year hpd dpw wpy hsd < volume * triage / 60)) := by
  have hg : ¬ (volume = 0 ∨ ftes = 0) := by
    push_neg
    exact ⟨ne_of_gt hv, ne_of_gt hf⟩
  have key : calculate_alert_costs volume ftes triage salary hpd dpw wpy hsd =
      ⟨ftes * salary *
          (if ftes * working_hours_per_fte_per_year hpd dpw wpy hsd > 0
            then (volume * triage / 60) / (ftes * working_hours_per_fte_per_year hpd dpw wpy hsd)
            else 0) / volume,
        ftes * salary *
          (if ftes * working_hours_per_fte_per_year hpd dpw wpy hsd > 0
            then (volume * triage / 60) / (ftes * working_hours_per_fte_per_year hpd dpw wpy hsd)
            else 0),
        (if ftes * working_hours_per_fte_per_year hpd dpw wpy hsd > 0
          then (volume * triage / 60) / (ftes * working_hours_per_fte_per_year hpd dpw wpy hsd)
          else 0),
        working_hours_per_fte_per_year hpd dpw wpy hsd⟩ := by
    simp only [calculate_alert_costs, working_hours_per_fte_per_year, if_neg hg, if_pos hv]
  rw [key]
  refine ⟨fun hA => ?_, fun hA => ?_, rfl, rfl, fun hA => ?_⟩
  · exact if_pos hA
  · exact if_neg hA
  · show 1 < (if ftes * working_hours_per_fte_per_year hpd dpw wpy hsd > 0
        then (volume * triage / 60) / (ftes * working_hours_per_fte_per_year hpd dpw wpy hsd)
        else 0) ↔ _
    rw [if_pos hA]
    exact one_lt_div hA

/-- Witness for C6: fixture volume = 1,200,000, ftes = 10, triage = 25,
salary = 50000, standard calendar; the over-capacity criterion holds. -/
theorem alert_cost_allocation_unclamped_witness :
    (0 : ℚ) < 1200000 ∧ (0 : ℚ) < 10 ∧
      (1 < (calculate_alert_costs 1200000 10 25 50000 8 5 52 25).fte_time_fraction ↔
        (10 : ℚ) * working_hours_per_fte_per_year 8 5 52 25 < 1200000 * 25 / 60) :=
  ⟨by norm_num, by norm_num,
    (alert_cost_allocation_unclamped 1200000 10 25 50000 8 5 52 25
      (by norm_num) (by norm_num)).2.2.2.2
      (by norm_num [working_hours_per_fte_per_year])⟩

/-- C8: in every scenario the adjusted annual benefits equal
base · benefits_multiplier, the adjusted delay is the truncation toward zero
of base_delay · delay_multiplier clamped at 0 (characterised by
impl_delay ≤ base·mult < impl_delay + 1 for nonnegative multipliers), and
the cash flows are built with the unchanged base ramp-up months. -/
theorem scenario_adjustment (B P S rate mult dmult : ℚ) (dl r ev : ℕ) (hd : 0 ≤ dmult) :
    (calculate_scenario_results B dl r ev P S rate mult dmult).annual_benefits = B * mult ∧
    ((calculate_scenario_results B dl r ev P S rate mult dmult).impl_delay : ℚ) ≤ (dl : ℚ) * dmult ∧
    (dl : ℚ) * dmult < ((calculate_scenario_results B dl r ev P S rate mult dmult).impl_delay : ℚ) + 1 ∧
    (calculate_scenario_results B dl r ev P S rate mult dmult).cash_flows =
      scenario_cash_flows (B * mult) P S
        (calculate_scenario_results B dl r ev P S rate mult dmult).impl_delay r ev := by
  refine ⟨rfl, ?_, ?_, rfl⟩
  · rw [csr_impl_delay, scenario_impl_delay_of_nonneg dl hd]
    exact Int.floor_le _
  · rw [csr_impl_delay, scenario_impl_delay_of_nonneg dl hd]
    exact Int.lt_floor_add_one _

/-- Witness for C8 at base delay 6 and the Conservative multiplier pair
(0.7, 1.3): the adjusted delay (7 = trunc(7.8)) satisfies the truncation
bounds. -/
theorem scenario_adjustment_witness :
    (0 : ℚ) ≤ 13 / 10 ∧
      ((calculate_scenario_results 100 6 3 2 10 5 (1 / 10) (7 / 10) (13 / 10)).annual_benefits =
          100 * (7 / 10) ∧
        ((calculate_scenario_results 100 6 3 2 10 5 (1 / 10) (7 / 10) (13 / 10)).impl_delay : ℚ) ≤
          (6 : ℕ) * (13 / 10) ∧
        ((6 : ℕ) : ℚ) * (13 / 10) <
          ((calculate_scenario_results 100 6 3 2 10 5 (1 / 10) (7 / 10) (13 / 10)).impl_delay : ℚ) + 1 ∧
        (calculate_scenario_results 100 6 3 2 10 5 (1 / 10) (7 / 10) (13 / 10)).cash_flows =
          scenario_cash_flows (100 * (7 / 10)) 10 5
            (calculate_scenario_results 100 6 3 2 10 5 (1 / 10) (7 / 10) (13 / 10)).impl_delay 3 2) :=
  ⟨by norm_num, scenario_adjustment 100 10 5 (1 / 10) (7 / 10) (13 / 10) 6 3 2 (by norm_num)⟩

/-- C5: for the scenario cash-flow series over years 1..evaluation_years,
the NPV returned by `calculate_scenario_results` equals
Σ_{y=1}^{ev} net_cash_flow(y)/(1+discount_rate)^y (discounting from year 1),
the TCO equals ev·platform_cost + services_cost (platform every year,
services only in year 1), and the ROI equals NPV/TCO when TCO ≠ 0 and 0
otherwise. -/
theorem scenario_metrics (B P S rate mult dmult : ℚ) (dl r ev : ℕ) (hev : 1 ≤ ev) :
    (calculate_scenario_results B dl r ev P S rate mult dmult).npv =
      ∑ y in Finset.Icc 1 ev,
        (scenario_year_cash_flow (B * mult) P S (scenario_impl_delay_of dl dmult) r y).net_cash_flow /
          (1 + rate) ^ y ∧
    scenario_tco (calculate_scenario_results B dl r ev P S rate mult dmult).cash_flows =
      (ev : ℚ) * P + S ∧
    (calculate_scenario_results B dl r ev P S rate mult dmult).roi =
      (if ((ev : ℚ) * P + S) ≠ 0
        then (calculate_scenario_results B dl r ev P S rate mult dmult).npv / ((ev : ℚ) * P + S)
        else 0) := by
  have htco := scenario_tco_eq (B * mult) P S (scenario_impl_delay_of dl dmult) r ev hev
  refine ⟨?_, ?_, ?_⟩
  · rw [csr_npv, scenario_npv_eq_sum_Icc]
  · rw [csr_cash_flows, htco]
  · rw [csr_roi, csr_npv, htco]

/-- Witness for C5 at B = 100, delay 0, ramp 0, ev = 1, P = 10, S = 5,
rate = 0, multipliers (1,1). -/
theorem scenario_metrics_witness :
    1 ≤ 1 ∧
      scenario_tco (calculate_scenario_results 100 0 0 1 10 5 0 1 1).cash_flows =
        ((1 : ℕ) : ℚ) * 10 + 5 :=
  ⟨le_refl 1, (scenario_metrics 100 10 5 0 1 1 0 0 1 (le_refl 1)).2.1⟩

/-! ### Average realization factor lemmas -/

lemma avg_realization_factor_eq (y d r : ℕ) :
    avg_realization_factor y d r =
      (∑ j in Finset.range 12, calculate_benefit_realization_factor ((y - 1) * 12 + 1 + j) d r) / 12 := by
  unfold avg_realization_factor monthly_factors
  rw [sum_map_range]
  simp

lemma avg_realization_factor_nonneg (y d r : ℕ) : 0 ≤ avg_realization_factor y d r := by
  rw [avg_realization_factor_eq]
  apply div_nonneg _ (by norm_num)
  exact Finset.sum_nonneg fun j _ => factor_nonneg _ d r

lemma avg_realization_factor_anti_delay (y r : ℕ) {d1 d2 : ℕ} (h : d1 ≤ d2) :
    avg_realization_factor y d2 r ≤ avg_realization_factor y d1 r := by
  rw [avg_realization_factor_eq, avg_realization_factor_eq,
    div_le_div_iff_of_pos_right (by norm_num : (0 : ℚ) < 12)]
  exact Finset.sum_le_sum fun j _ => factor_anti_delay _ r h

/-- The `net_cash_flow` field of one projected year, written out. -/
lemma scenario_year_net (sb P S : ℚ) (d r y : ℕ) :
    (scenario_year_cash_flow sb P S d r y).net_cash_flow =
      sb * avg_realization_factor y d r - P - (if y = 1 then S else 0) := rfl

/-- NPV comparison across scenarios: a smaller benefits multiplier together
with a longer implementation delay can only lower the NPV. -/
lemma scenario_npv_le (B P S rate : ℚ) (r ev : ℕ) (d1 d2 : ℕ) (m1 m2 : ℚ)
    (hB : 0 ≤ B) (h0 : 0 ≤ m1) (hm : m1 ≤ m2) (hd : d2 ≤ d1) (hrate : 0 ≤ rate) :
    scenario_npv (scenario_cash_flows (B * m1) P S d1 r ev) rate ≤
      scenario_npv (scenario_cash_flows (B * m2) P S d2 r ev) rate := by
  rw [scenario_npv_eq_sum, scenario_npv_eq_sum]
  apply Finset.sum_le_sum
  intro i _
  have hpow : (0 : ℚ) < (1 + rate) ^ (i + 1) := by positivity
  rw [div_le_div_iff_of_pos_right hpow, scenario_year_net, scenario_year_net]
  have hmul : B * m1 * avg_realization_factor (i + 1) d1 r ≤
      B * m2 * avg_realization_factor (i + 1) d2 r :=
    mul_le_mul (mul_le_mul_of_nonneg_left hm hB)
      (avg_realization_factor_anti_delay (i + 1) r hd)
      (avg_realization_factor_nonneg (i + 1) d1 r)
      (mul_nonneg hB (le_trans h0 hm))
  linarith

/-! ### Scenario delay adjustment lemmas -/

lemma scenario_impl_delay_of_one (dl : ℕ) : scenario_impl_delay_of dl 1 = dl := by
  have h := scenario_impl_delay_of_nonneg dl (zero_le_one)
  rw [mul_one, Int.floor_natCast] at h
  exact_mod_cast h

lemma scenario_impl_delay_of_ge (dl : ℕ) {dm : ℚ} (h1 : 1 ≤ dm) :
    dl ≤ scenario_impl_delay_of dl dm := by
  have h0 : (0 : ℚ) ≤ dm := le_trans zero_le_one h1
  have h := scenario_impl_delay_of_nonneg dl h0
  have hq : (dl : ℚ) ≤ (scenario_impl_delay_of dl dm : ℚ) := by
    rw [h]
    have hfl : ((dl : ℤ) : ℚ) ≤ (dl : ℚ) * dm := by
      push_cast
      exact le_mul_of_one_le_right (Nat.cast_nonneg dl) h1
    exact_mod_cast Int.le_floor.mpr hfl
  exact_mod_cast hq

lemma scenario_impl_delay_of_le (dl : ℕ) {dm : ℚ} (h0 : 0 ≤ dm) (h1 : dm ≤ 1) :
    scenario_impl_delay_of dl dm ≤ dl := by
  have h := scenario_impl_delay_of_nonneg dl h0
  have hq : (scenario_impl_delay_of dl dm : ℚ) ≤ (dl : ℚ) := by
    rw [h]
    calc ((⌊(dl : ℚ) * dm⌋ : ℤ) : ℚ) ≤ (dl : ℚ) * dm := Int.floor_le _
      _ ≤ (dl : ℚ) := mul_le_of_le_one_right (Nat.cast_nonneg dl) h1
  exact_mod_cast hq

/-- C9: with shared inputs, base annual benefits > 0 and a nonnegative
discount rate, the NPVs of the three fixed scenarios are ordered
Conservative (0.7, 1.3) ≤ Expected (1.0, 1.0) ≤ Optimistic (1.2, 0.8). -/
theorem scenario_npv_ordering (B P S rate : ℚ) (dl r ev : ℕ)
    (hB : 0 < B) (hrate : 0 ≤ rate) :
    (calculate_scenario_results B dl r ev P S rate (7 / 10) (13 / 10)).npv ≤
      (calculate_scenario_results B dl r ev P S rate 1 1).npv ∧
    (calculate_scenario_results B dl r ev P S rate 1 1).npv ≤
      (calculate_scenario_results B dl r ev P S rate (12 / 10) (8 / 10)).npv := by
  simp only [csr_npv]
  have hde : scenario_impl_delay_of dl 1 = dl := scenario_impl_delay_of_one dl
  constructor
  · apply scenario_npv_le B P S rate r ev _ _ (7 / 10) 1 (le_of_lt hB) (by norm_num)
      (by norm_num) _ hrate
    rw [hde]
    exact scenario_impl_delay_of_ge dl (by norm_num)
  · apply scenario_npv_le B P S rate r ev _ _ 1 (12 / 10) (le_of_lt hB) (by norm_num)
      (by norm_num) _ hrate
    rw [hde]
    exact scenario_impl_delay_of_le dl (by norm_num) (by norm_num)

/-- Witness for C9 at the spec's fixture: B = 100000, platform 10000,
services 5000, delay 6, ramp 3, 3 years, 10% discount. -/
theorem scenario_npv_ordering_witness :
    (0 : ℚ) < 100000 ∧ (0 : ℚ) ≤ 1 / 10 ∧
      ((calculate_scenario_results 100000 6 3 3 10000 5000 (1 / 10) (7 / 10) (13 / 10)).npv ≤
          (calculate_scenario_results 100000 6 3 3 10000 5000 (1 / 10) 1 1).npv ∧
        (calculate_scenario_results 100000 6 3 3 10000 5000 (1 / 10) 1 1).npv ≤
          (calculate_scenario_results 100000 6 3 3 10000 5000 (1 / 10) (12 / 10) (8 / 10)).npv) :=
  ⟨by norm_num, by norm_num,
    scenario_npv_ordering 100000 10000 5000 (1 / 10) 6 3 3 (by norm_num) (by norm_num)⟩

/-! ### Cumulative monthly and yearly cash flows -/

/-- Cumulative monthly cash flow after `m` months: `-services_cost` at month 0,
then each month's net cash flow added (the accumulator of both monthly loops). -/
def mCum (B P S : ℚ) (dl r : ℕ) : ℕ → ℚ
  | 0 => -S
  | m + 1 => mCum B P S dl r m + monthly_net_cash_flow B P dl r (m + 1)

/-- Partial sums of the yearly projector's net cash flows (the accumulator of
the annual payback loop). -/
def aCum (B P S : ℚ) (dl r : ℕ) : ℕ → ℚ
  | 0 => 0
  | y + 1 => aCum B P S dl r y + (scenario_year_cash_flow B P S dl r (y + 1)).net_cash_flow

lemma mCum_add (B P S : ℚ) (dl r : ℕ) (k n : ℕ) :
    mCum B P S dl r (n + k) =
      mCum B P S dl r n + ∑ j in Finset.range k, monthly_net_cash_flow B P dl r (n + 1 + j) := by
  induction k with
  | zero => simp
  | succ k ih =>
    rw [show n + (k + 1) = (n + k) + 1 from by omega]
    rw [show mCum B P S dl r ((n + k) + 1) =
      mCum B P S dl r (n + k) + monthly_net_cash_flow B P dl r ((n + k) + 1) from rfl]
    rw [ih, Finset.sum_range_succ, show n + k + 1 = n + 1 + k from by omega]
    ring

lemma sum_monthly_net_12 (B P : ℚ) (dl r n : ℕ) :
    ∑ j in Finset.range 12, monthly_net_cash_flow B P dl r (n + 1 + j) =
      (B / 12) * (∑ j in Finset.range 12, calculate_benefit_realization_factor (n + 1 + j) dl r) - P := by
  simp only [monthly_net_cash_flow]
  rw [Finset.sum_sub_distrib, ← Finset.mul_sum, Finset.sum_const, Finset.card_range, nsmul_eq_mul]
  push_cast
  ring

lemma aCum_eq_mCum (B P S : ℚ) (dl r : ℕ) :
    ∀ y : ℕ, 1 ≤ y → aCum B P S dl r y = mCum B P S dl r (12 * y) := by
  intro y hy
  induction y, hy using Nat.le_induction with
  | base =>
    have h0 : aCum B P S dl r 1 =
        B * avg_realization_factor 1 dl r - P - S := by
      simp [aCum, scenario_year_net]
    have h1 : mCum B P S dl r (12 * 1) =
        -S + ((B / 12) * (∑ j in Finset.range 12, calculate_benefit_realization_factor (0 + 1 + j) dl r) - P) := by
      rw [show 12 * 1 = 0 + 12 from by omega, mCum_add, sum_monthly_net_12]
      rfl
    rw [h0, h1, avg_realization_factor_eq]
    have hidx : ∀ j : ℕ, (1 - 1) * 12 + 1 + j = 0 + 1 + j := fun j => by omega
    simp only [hidx]
    ring
  | succ y hy ih =>
    have hstep : aCum B P S dl r (y + 1) =
        aCum B P S dl r y + (B * avg_realization_factor (y + 1) dl r - P) := by
      have hne : y + 1 ≠ 1 := by omega
      simp only [aCum, scenario_year_net, if_neg hne]
      ring
    have hm : mCum B P S dl r (12 * (y + 1)) =
        mCum B P S dl r (12 * y) +
          ((B / 12) * (∑ j in Finset.range 12, calculate_benefit_realization_factor (12 * y + 1 + j) dl r) - P) := by
      rw [show 12 * (y + 1) = 12 * y + 12 from by omega, mCum_add, sum_monthly_net_12]
    rw [hstep, hm, ← ih, avg_realization_factor_eq]
    have hidx : ∀ j : ℕ, (y + 1 - 1) * 12 + 1 + j = 12 * y + 1 + j := fun j => by omega
    simp only [hidx]
    ring

lemma range_map_net_sum (B P S : ℚ) (dl r : ℕ) (y : ℕ) :
    ((List.range y).map
      (fun i => (scenario_year_cash_flow B P S dl r (i + 1)).net_cash_flow)).sum =
      aCum B P S dl r y := by
  induction y with
  | zero => simp [aCum]
  | succ y ih =>
    rw [List.range_succ, List.map_append, List.sum_append, ih]
    simp [aCum]

lemma take_sum_eq_aCum (B P S : ℚ) (dl r ev y : ℕ) (hy : y ≤ ev) :
    (((scenario_cash_flows B P S dl r ev).take y).map CashFlowYear.net_cash_flow).sum =
      aCum B P S dl r y := by
  unfold scenario_cash_flows
  rw [← List.map_take, List.take_range, Nat.min_eq_left hy, List.map_map]
  exact range_map_net_sum B P S dl r y

lemma monthly_cf_go_length (B P : ℚ) (dl r : ℕ) :
    ∀ fuel k c, (monthly_cf_go B P dl r fuel k c).length = fuel := by
  intro fuel
  induction fuel with
  | zero => intro k c; rfl
  | succ fuel ih =>
    intro k c
    simp only [monthly_cf_go, List.length_cons, ih]

lemma monthly_cf_go_cum (B P S : ℚ) (dl r : ℕ) :
    ∀ fuel k c, c = mCum B P S dl r k → ∀ i, i < fuel →
      ((monthly_cf_go B P dl r fuel (k + 1) c).getD i ⟨0, 0, 0⟩).cumulative_net_cash_flow =
        mCum B P S dl r (k + 1 + i) := by
  intro fuel
  induction fuel with
  | zero => intro k c _ i hi; exact absurd hi (Nat.not_lt_zero i)
  | succ fuel ih =>
    intro k c hc i hi
    have hc2 : c + monthly_net_cash_flow B P dl r (k + 1) = mCum B P S dl r (k + 1) := by
      rw [hc]
      simp [mCum]
    simp only [monthly_cf_go]
    cases i with
    | zero =>
      rw [List.getD_cons_zero]
      simpa using hc2
    | succ j =>
      rw [List.getD_cons_succ, show k + 1 + (j + 1) = (k + 1) + 1 + j from by omega]
      exact ih (k + 1) (c + monthly_net_cash_flow B P dl r (k + 1)) hc2 j (by omega)

lemma get_monthly_length (B P S : ℚ) (dl r ev : ℕ) :
    (get_monthly_cumulative_cash_flow B P S dl r ev).length = ev * 12 + 1 := by
  simp [get_monthly_cumulative_cash_flow, monthly_cf_go_length]

lemma get_monthly_cum (B P S : ℚ) (dl r ev : ℕ) (M : ℕ) (hM : M ≤ ev * 12) :
    monthRowCumAt (get_monthly_cumulative_cash_flow B P S dl r ev) M = mCum B P S dl r M := by
  unfold monthRowCumAt get_monthly_cumulative_cash_flow
  cases M with
  | zero => rfl
  | succ i =>
    rw [List.getD_cons_succ, show i + 1 = 0 + 1 + i from by omega]
    exact monthly_cf_go_cum B P S dl r (ev * 12) 0 (-S) rfl i (by omega)

/-- C10: for every year y in 1..evaluation_years, the monthly cumulative
cash-flow series (month 0 = -services_cost, then one row per month) agrees at
month 12·y with the sum of the first y annual net cash flows produced by the
yearly projector of `calculate_scenario_results` with multiplier 1; the
one-time services cost is counted exactly once in each view. -/
theorem monthly_yearly_cash_flow_agree (B P S rate : ℚ) (dl r ev y : ℕ)
    (h1 : 1 ≤ y) (h2 : y ≤ ev) :
    (get_monthly_cumulative_cash_flow B P S dl r ev).length = ev * 12 + 1 ∧
      monthRowCumAt (get_monthly_cumulative_cash_flow B P S dl r ev) (12 * y) =
        ((((calculate_scenario_results B dl r ev P S rate 1 1).cash_flows).take y).map
          CashFlowYear.net_cash_flow).sum := by
  refine ⟨get_monthly_length B P S dl r ev, ?_⟩
  rw [csr_cash_flows, mul_one, scenario_impl_delay_of_one,
    take_sum_eq_aCum B P S dl r ev y h2, aCum_eq_mCum B P S dl r y h1,
    get_monthly_cum B P S dl r ev (12 * y) (by omega)]

/-- Witness for C10 at y = 1, ev = 1, B = 120, P = 12, S = 10, delay 1, ramp 2. -/
theorem monthly_yearly_cash_flow_agree_witness :
    1 ≤ 1 ∧
      ((get_monthly_cumulative_cash_flow 120 12 10 1 2 1).length = 1 * 12 + 1 ∧
        monthRowCumAt (get_monthly_cumulative_cash_flow 120 12 10 1 2 1) (12 * 1) =
          ((((calculate_scenario_results 120 1 2 1 12 10 0 1 1).cash_flows).take 1).map
            CashFlowYear.net_cash_flow).sum) :=
  ⟨le_refl 1, monthly_yearly_cash_flow_agree 120 12 10 0 1 2 1 1 (le_refl 1) (le_refl 1)⟩

/-! ### Payback characterisations -/

lemma scenario_year_year (sb P S : ℚ) (d r y : ℕ) :
    (scenario_year_cash_flow sb P S d r y).year = y := rfl

lemma payback_months_go_none_iff (B P S : ℚ) (dl r : ℕ) :
    ∀ fuel k c, c = mCum B P S dl r k →
      (payback_months_go B P dl r fuel (k + 1) c = none ↔
        ∀ m, k + 1 ≤ m → m ≤ k + fuel → mCum B P S dl r m < 0) := by
  intro fuel
  induction fuel with
  | zero =>
    intro k c _
    simp only [payback_months_go]
    constructor
    · intro _ m h1 h2
      exact absurd (h1.trans h2) (by omega)
    · intro _
      trivial
  | succ fuel ih =>
    intro k c hc
    have hc2 : c + monthly_net_cash_flow B P dl r (k + 1) = mCum B P S dl r (k + 1) := by
      rw [hc]
      simp [mCum]
    simp only [payback_months_go]
    rw [hc2]
    by_cases h : 0 ≤ mCum B P S dl r (k + 1)
    · rw [if_pos h]
      constructor
      · intro hx
        exact absurd hx (Option.some_ne_none _)
      · intro hall
        exact absurd h (not_le.mpr (hall (k + 1) (by omega) (by omega)))
    · rw [if_neg h, ih (k + 1) (mCum B P S dl r (k + 1)) rfl]
      push_neg at h
      constructor
      · intro hall m h1 h2
        by_cases hm : m = k + 1
        · rw [hm]
          exact h
        · exact hall m (by omega) (by omega)
      · intro hall m h1 h2
        exact hall m (by omega) (by omega)

lemma calculate_payback_months_none_iff (B P S : ℚ) (dl r N : ℕ) :
    calculate_payback_months B P S dl r N = none ↔
      ∀ m, 1 ≤ m → m ≤ N → mCum B P S dl r m < 0 := by
  unfold calculate_payback_months
  have h := payback_months_go_none_iff B P S dl r N 0 (-S) rfl
  constructor
  · intro hn m h1 h2
    have h0 : payback_months_go B P dl r N (0 + 1) (-S) = none := by simpa using hn
    exact (h.mp h0) m (by omega) (by omega)
  · intro hall
    have := h.mpr (fun m h1 h2 => hall m (by omega) (by omega))
    simpa using this

lemma payback_years_go_none_iff (B P S : ℚ) (dl r : ℕ) :
    ∀ n k c, c = aCum B P S dl r k →
      (payback_years_go
          ((List.range n).map (fun i => scenario_year_cash_flow B P S dl r (k + 1 + i))) c = none ↔
        ∀ y, k + 1 ≤ y → y ≤ k + n → aCum B P S dl r y < 0) := by
  intro n
  induction n with
  | zero =>
    intro k c _
    simp only [List.range_zero, List.map_nil, payback_years_go]
    constructor
    · intro _ y h1 h2
      exact absurd (h1.trans h2) (by omega)
    · intro _
      trivial
  | succ n ih =>
    intro k c hc
    rw [List.range_succ_eq_map, List.map_cons, List.map_map]
    have hfun : ((fun i => scenario_year_cash_flow B P S dl r (k + 1 + i)) ∘ Nat.succ) =
        (fun i => scenario_year_cash_flow B P S dl r ((k + 1) + 1 + i)) := by
      funext i
      show scenario_year_cash_flow B P S dl r (k + 1 + Nat.succ i) =
        scenario_year_cash_flow B P S dl r ((k + 1) + 1 + i)
      congr 1
      omega
    rw [hfun]
    simp only [payback_years_go, Nat.add_zero]
    have hc2 : c + (scenario_year_cash_flow B P S dl r (k + 1)).net_cash_flow =
        aCum B P S dl r (k + 1) := by
      rw [hc]
      simp [aCum]
    rw [hc2]
    by_cases h : 0 ≤ aCum B P S dl r (k + 1)
    · rw [if_pos h]
      constructor
      · intro hx
        exact absurd hx (Option.some_ne_none _)
      · intro hall
        exact absurd h (not_le.mpr (hall (k + 1) (by omega) (by omega)))
    · rw [if_neg h, ih (k + 1) (aCum B P S dl r (k + 1)) rfl]
      push_neg at h
      constructor
      · intro hall y h1 h2
        by_cases hy : y = k + 1
        · rw [hy]
          exact h
        · exact hall y (by omega) (by omega)
      · intro hall y h1 h2
        exact hall y (by omega) (by omega)

lemma scenario_payback_none_iff (B P S : ℚ) (dl r ev : ℕ) :
    payback_years_go (scenario_cash_flows B P S dl r ev) 0 = none ↔
      ∀ y, 1 ≤ y → y ≤ ev → aCum B P S dl r y < 0 := by
  have h := payback_years_go_none_iff B P S dl r ev 0 0 rfl
  have hlist : (List.range ev).map (fun i => scenario_year_cash_flow B P S dl r (0 + 1 + i)) =
      scenario_cash_flows B P S dl r ev := by
    unfold scenario_cash_flows
    congr 1
    funext i
    congr 1
    omega
  rw [hlist] at h
  exact ⟨fun hn y h1 h2 => h.mp hn y (by omega) (by omega),
    fun hall => h.mpr fun y h1 h2 => hall y (by omega) (by omega)⟩

/-! ### Monthly flow monotonicity and the cumulative negativity argument -/

lemma monthly_net_mono (B P : ℚ) (dl r : ℕ) (hB : 0 ≤ B) {m1 m2 : ℕ} (h : m1 ≤ m2) :
    monthly_net_cash_flow B P dl r m1 ≤ monthly_net_cash_flow B P dl r m2 := by
  simp only [monthly_net_cash_flow]
  have hB12 : (0 : ℚ) ≤ B / 12 := by positivity
  have := mul_le_mul_of_nonneg_left (factor_mono dl r h) hB12
  linarith

lemma mCum_le_of_flow (B P S : ℚ) (dl r : ℕ) (hB : 0 ≤ B) (M : ℕ)
    (hM : 0 ≤ monthly_net_cash_flow B P dl r M) :
    ∀ n, M ≤ n → mCum B P S dl r M ≤ mCum B P S dl r n := by
  intro n hn
  induction n, hn using Nat.le_induction with
  | base => exact le_refl _
  | succ n hn ih =>
    have hflow : 0 ≤ monthly_net_cash_flow B P dl r (n + 1) :=
      le_trans hM (monthly_net_mono B P dl r hB (by omega))
    have hstep : mCum B P S dl r (n + 1) =
        mCum B P S dl r n + monthly_net_cash_flow B P dl r (n + 1) := by
      simp [mCum]
    linarith

lemma mCum_all_neg (B P S : ℚ) (dl r ev : ℕ) (hB : 0 ≤ B) (hS : 0 ≤ S)
    (H : ∀ y, 1 ≤ y → y ≤ ev → mCum B P S dl r (12 * y) < 0) :
    ∀ m, 1 ≤ m → m ≤ ev * 12 → mCum B P S dl r m < 0 := by
  intro m
  induction m using Nat.strong_induction_on with
  | _ m ih =>
    intro hm1 hm2
    by_contra hcon
    push_neg at hcon
    obtain ⟨mm, rfl⟩ : ∃ mm, m = mm + 1 := ⟨m - 1, by omega⟩
    have hprev : mCum B P S dl r mm ≤ 0 := by
      rcases Nat.eq_zero_or_pos mm with h0 | h0
      · rw [h0]
        show -S ≤ 0
        linarith
      · exact le_of_lt (ih mm (by omega) (by omega) (by omega))
    have hstep : mCum B P S dl r (mm + 1) =
        mCum B P S dl r mm + monthly_net_cash_flow B P dl r (mm + 1) := by
      simp [mCum]
    have hflow : 0 ≤ monthly_net_cash_flow B P dl r (mm + 1) := by linarith
    have hy1 : 1 ≤ (mm + 1 + 11) / 12 := by omega
    have hy2 : (mm + 1 + 11) / 12 ≤ ev := by omega
    have hy3 : mm + 1 ≤ 12 * ((mm + 1 + 11) / 12) := by omega
    have hle := mCum_le_of_flow B P S dl r hB (mm + 1) hflow (12 * ((mm + 1 + 11) / 12)) hy3
    have := H ((mm + 1 + 11) / 12) hy1 hy2
    linarith

/-- C2: whenever the annual payback over years 1..evaluation_years reports
"N/A" (the cumulative undiscounted net cash flow never reaches 0 at any year
end), the monthly payback with the same inputs and horizon
evaluation_years·12 also reports "N/A", for nonnegative benefits, platform
cost and services cost and evaluation_years in 1..5. -/
theorem payback_months_na_of_years_na (B P S : ℚ) (dl r ev : ℕ)
    (hB : 0 ≤ B) (hP : 0 ≤ P) (hS : 0 ≤ S) (hev1 : 1 ≤ ev) (hev5 : ev ≤ 5)
    (H : payback_years_go (scenario_cash_flows B P S dl r ev) 0 = none) :
    calculate_payback_months B P S dl r (ev * 12) = none := by
  rw [scenario_payback_none_iff] at H
  have Hm : ∀ y, 1 ≤ y → y ≤ ev → mCum B P S dl r (12 * y) < 0 := by
    intro y h1 h2
    rw [← aCum_eq_mCum B P S dl r y h1]
    exact H y h1 h2
  rw [calculate_payback_months_none_iff]
  exact mCum_all_neg B P S dl r ev hB hS Hm

/-- Witness for C2 at B = 0, P = 1, S = 0, delay 0, ramp 0, ev = 1 (annual
payback is "N/A" there, and so is the 12-month payback). -/
theorem payback_months_na_of_years_na_witness :
    ((0 : ℚ) ≤ 0 ∧ (0 : ℚ) ≤ 1 ∧ 1 ≤ 1 ∧ 1 ≤ 5 ∧
        payback_years_go (scenario_cash_flows 0 1 0 0 0 1) 0 = none) ∧
      calculate_payback_months 0 1 0 0 0 (1 * 12) = none :=
  ⟨⟨le_refl 0, by norm_num, le_refl 1, by norm_num,
      by norm_num [payback_years_go, scenario_cash_flows, scenario_year_cash_flow,
        avg_realization_factor, monthly_factors, calculate_benefit_realization_factor,
        List.range_succ]⟩,
    payback_months_na_of_years_na 0 1 0 0 0 1 (le_refl 0) (by norm_num) (le_refl 0)
      (le_refl 1) (by norm_num)
      (by norm_num [payback_years_go, scenario_cash_flows, scenario_year_cash_flow,
        avg_realization_factor, monthly_factors, calculate_benefit_realization_factor,
        List.range_succ])⟩

end BVA
